import Mathlib

/-!
Verification development for the gifts_exercise repository: a customer
churn-risk dashboard. The analytic core (cleaning, RFM aggregation, churn
scoring, k-means segmentation, statistics rollup, recommendation cache)
lives in the Python backend, whose sources are not part of the staged
files; those parts are modelled from the spec (each such definition says
so in its doc comment). The frontend TypeScript sources are embedded
directly: the churn-threshold colouring (lib/api.ts `getPointColor`), the
at-risk table (components/ChurnTable.tsx), the Dashboard's `realSegments`
filter, and the response shapes of types/api.ts.

Numeric convention: the backend works in floating point; we embed exact
arithmetic over ℚ. The natural logarithm and the square root used by the
standardizer are transcendental, so the pipeline is parameterized by the
two functions `lnQ` and `sqrtQ` that the backend fixes (numpy's log and
sqrt); every claim proved here is independent of their values.
-/

/-- A customer record as declared in src/frontend/src/types/api.ts
(`CustomerRecord`). `median_purchase_days`, `churn_ratio` and
`churn_label` are nullable in the backend's output, modelled as
`Option`. -/
structure CustomerRecord where
  customer_id : Nat
  recency : ℚ
  frequency : Nat
  monetary : ℚ
  median_purchase_days : Option ℚ
  churn_ratio : Option ℚ
  churn_label : Option String
  monetary_log : ℚ
  cluster_assignment : Nat
  segment : String
deriving Repr, DecidableEq

/-- A per-segment statistics row as declared in
src/frontend/src/types/api.ts (`SegmentStatistics`). -/
structure SegmentStatistics where
  segment : String
  high_risk_count : Nat
  medium_risk_count : Nat
  med_high_ratio : ℚ
  med_high_monetary_sum : ℚ
deriving Repr, DecidableEq

/-- The success payload of `load_dataset` as declared in
src/frontend/src/types/api.ts (`ProcessDataResponse`). -/
structure ProcessDataResponse where
  status : String
  message : String
  data : List CustomerRecord
  total_customers : Nat
  segment_statistics : List SegmentStatistics
deriving Repr, DecidableEq

/-- The success payload of `get_recommendation` as declared in
src/frontend/src/types/api.ts (`CustomerRecommendationResponse`). -/
structure CustomerRecommendationResponse where
  customer : CustomerRecord
  recommendation : String
deriving Repr, DecidableEq

/-- The field names of `ProcessDataResponse`, in declaration order, as
they stand in src/frontend/src/types/api.ts lines 22-28. -/
def processDataResponseFields : List String :=
  ["status", "message", "data", "total_customers", "segment_statistics"]

/-- The field names of `CustomerRecommendationResponse`, in declaration
order, as they stand in src/frontend/src/types/api.ts lines 30-33. -/
def customerRecommendationResponseFields : List String :=
  ["customer", "recommendation"]

/-- The field names the spec's interface contract (§6) claims for the
`load_dataset` success payload, following the spec's words. -/
def specLoadDatasetFields : List String :=
  ["status", "message", "customer_records", "total_customers", "segment_statistics"]

/-- The field names the spec's interface contract (§6) claims for the
`get_recommendation` success payload, following the spec's words. -/
def specGetRecommendationFields : List String :=
  ["customer_record", "recommendation_text"]

/-- Modelled from the spec: the backend churn scorer (§4.3, backend
utils/pipelines.py is not among the staged files). Fixed thresholds:
ratio < 1 is Low Risk, 1 ≤ ratio < 2 is Medium Risk, ratio ≥ 2 is High
Risk. -/
def churnLabelOfRatio (r : ℚ) : String :=
  if r < 1 then "Low Risk"
  else if r < 2 then "Medium Risk"
  else "High Risk"

/-- Embedded from src/frontend/src/lib/api.ts lines 97-101
(`getPointColor` in ChurnScatterPlot): the scatter-plot point colour as a
function of the churn ratio. -/
def getPointColor (churnRatio : ℚ) : String :=
  if churnRatio ≥ 2 then "hsl(0, 84%, 60%)"
  else if churnRatio ≥ 1 then "hsl(38, 92%, 50%)"
  else "hsl(142, 71%, 45%)"

/-- Embedded from src/frontend/src/components/ChurnTable.tsx lines 22-25
(`atRiskData`): keep only the customers labelled High or Medium risk. -/
def atRiskData (data : List CustomerRecord) : List CustomerRecord :=
  data.filter fun customer =>
    customer.churn_label = some "High Risk" ∨ customer.churn_label = some "Medium Risk"

/-- Embedded from src/frontend/src/components/ChurnTable.tsx line 27
(`displayData`): all at-risk rows when `showAll` is set, else the first
ten. -/
def displayData (data : List CustomerRecord) (showAll : Bool) : List CustomerRecord :=
  if showAll then atRiskData data else (atRiskData data).take 10

/-- Embedded from src/frontend/src/components/Dashboard.tsx lines 20-22
(`realSegments`): drop the synthetic Total row from the statistics. -/
def realSegments (stats : List SegmentStatistics) : List SegmentStatistics :=
  stats.filter fun s => ¬ s.segment.toLower = "total"

/-- The field names the amended claim states for the `load_dataset`
success payload. -/
def amendedLoadDatasetFields : List String :=
  ["status", "message", "data", "total_customers", "segment_statistics"]

/-- The field names the amended claim states for the `get_recommendation`
success payload. -/
def amendedGetRecommendationFields : List String :=
  ["customer", "recommendation"]

/-- A transaction record (one per line item). Modelled from the spec
(§3): invoice and product identifiers, a nullable customer identifier,
signed quantity, signed decimal unit price, a timestamp (embedded as a
whole-day number, which is the granularity every derived feature uses)
and a country code. -/
structure Txn where
  invoice_id : Nat
  product_id : Nat
  customer_id : Option Nat
  quantity : Int
  unit_price : ℚ
  invoice_date : Nat
  country : String
deriving Repr, DecidableEq

/-- Modelled from the spec (§4.1, backend utils/pipelines.py is not among
the staged files): cleaning rule (1), drop rows with a null/missing
customer identifier. -/
def dropMissingCustomer (rows : List Txn) : List Txn :=
  rows.filter fun t => t.customer_id.isSome

/-- Modelled from the spec (§4.1): cleaning rule (2), drop rows with unit
price ≤ 0 or quantity ≤ 0. -/
def dropNonPositive (rows : List Txn) : List Txn :=
  rows.filter fun t => ¬ (t.unit_price ≤ 0 ∨ t.quantity ≤ 0)

/-- Modelled from the spec (§4.1): the two cleaning rules applied in
order. -/
def cleanRows (rows : List Txn) : List Txn :=
  dropNonPositive (dropMissingCustomer rows)

/-- Modelled from the spec (§4.2): the distinct invoice dates of a
customer's transactions, sorted ascending (multiple line items on the
same date count once). -/
def distinctInvoiceDates (txns : List Txn) : List Nat :=
  (List.insertionSort (· ≤ ·) (txns.map Txn.invoice_date)).dedup

/-- Modelled from the spec (§4.2): successive differences, in days, of a
list of dates. -/
def dateGaps : List Nat → List Nat
  | a :: b :: rest => (b - a) :: dateGaps (b :: rest)
  | _ => []

/-- Modelled from the spec (§4.2): the median of a list of rationals —
sort ascending, take the middle element, or the mean of the two middle
elements when the length is even; undefined on the empty list. -/
def medianQ (l : List ℚ) : Option ℚ :=
  let s := List.insertionSort (· ≤ ·) l
  if s.length = 0 then none
  else if s.length % 2 = 1 then some (s.getD (s.length / 2) 0)
  else some ((s.getD (s.length / 2 - 1) 0 + s.getD (s.length / 2) 0) / 2)

/-- Modelled from the spec (§3, §4.2): the median gap in days between a
customer's successive distinct invoice dates; undefined (null, not zero)
when the customer has fewer than two distinct invoice dates. -/
def medianPurchaseDays (txns : List Txn) : Option ℚ :=
  let ds := distinctInvoiceDates txns
  if ds.length < 2 then none
  else medianQ ((dateGaps ds).map (Nat.cast : ℕ → ℚ))

/-- Modelled from the spec (§4.3): `churn_ratio = recency /
median_purchase_days` when the denominator is defined and nonzero, else
null. -/
def churnRatio (recency : ℚ) (mpd : Option ℚ) : Option ℚ :=
  match mpd with
  | none => none
  | some m => if m = 0 then none else some (recency / m)

/-- The latest invoice date among a list of transactions. -/
def maxInvoiceDate (txns : List Txn) : Nat :=
  (txns.map Txn.invoice_date).foldr max 0

/-- Modelled from the spec (§4.2): one customer's feature record, before
the segmentation fields are merged in. `refDay` is the snapshot
reference (global max date + 1), `lnQ` the backend's natural-log
routine (transcendental, so passed as a parameter; ε = 1 for the log
offset, a convention the spec's §9 leaves to the implementation).
`cluster_assignment`/`segment` are filled in by the segmentation step. -/
def computeCustomer (lnQ : ℚ → ℚ) (refDay : Nat) (cid : Nat) (txns : List Txn) :
    CustomerRecord :=
  let recency : ℚ := (refDay : ℚ) - (maxInvoiceDate txns : ℚ)
  let monetary : ℚ := (txns.map fun t => (t.quantity : ℚ) * t.unit_price).sum
  let mpd := medianPurchaseDays txns
  let ratio := churnRatio recency mpd
  { customer_id := cid
    recency := recency
    frequency := ((txns.map Txn.invoice_id).dedup).length
    monetary := monetary
    median_purchase_days := mpd
    churn_ratio := ratio
    churn_label := ratio.map churnLabelOfRatio
    monetary_log := lnQ (monetary + 1)
    cluster_assignment := 0
    segment := "" }

/-- The distinct customer identifiers of the cleaned rows, in order of
first appearance. -/
def customerIds (cleaned : List Txn) : List Nat :=
  (cleaned.filterMap Txn.customer_id).dedup

/-- The cleaned rows belonging to one customer. -/
def txnsOf (cleaned : List Txn) (cid : Nat) : List Txn :=
  cleaned.filter fun t => t.customer_id = some cid

/-- Modelled from the spec (§4.2): one feature record per distinct
customer, all measured against the shared snapshot reference (global max
invoice date + 1). -/
def baseRecords (lnQ : ℚ → ℚ) (cleaned : List Txn) : List CustomerRecord :=
  let refDay := maxInvoiceDate cleaned + 1
  (customerIds cleaned).map fun cid => computeCustomer lnQ refDay cid (txnsOf cleaned cid)

/-- A feature vector [recency, frequency, monetary_log]. -/
abbrev Vec3 := ℚ × ℚ × ℚ

/-- Componentwise mean of a list of feature vectors. -/
def vecMean (pts : List Vec3) : Vec3 :=
  let n : ℚ := pts.length
  ((pts.map fun p => p.1).sum / n,
   (pts.map fun p => p.2.1).sum / n,
   (pts.map fun p => p.2.2).sum / n)

/-- Componentwise population variance of a list of feature vectors
(population rather than sample variance: a convention the spec's §9
leaves to the implementation). -/
def vecVar (pts : List Vec3) : Vec3 :=
  let m := vecMean pts
  let n : ℚ := pts.length
  ((pts.map fun p => (p.1 - m.1) ^ 2).sum / n,
   (pts.map fun p => (p.2.1 - m.2.1) ^ 2).sum / n,
   (pts.map fun p => (p.2.2 - m.2.2) ^ 2).sum / n)

/-- Modelled from the spec (§4.4): standardize each feature to zero mean
and unit variance before fitting. `sqrtQ` is the backend's square root
(transcendental, so passed as a parameter); a zero-variance feature is
left centred. -/
def standardize (sqrtQ : ℚ → ℚ) (pts : List Vec3) : List Vec3 :=
  let m := vecMean pts
  let v := vecVar pts
  let scale : ℚ → ℚ → ℚ := fun x s => if sqrtQ s = 0 then x else x / sqrtQ s
  pts.map fun p =>
    (scale (p.1 - m.1) v.1, scale (p.2.1 - m.2.1) v.2.1, scale (p.2.2 - m.2.2) v.2.2)

/-- Squared Euclidean distance between feature vectors. -/
def sqDist (a b : Vec3) : ℚ :=
  (a.1 - b.1) ^ 2 + (a.2.1 - b.2.1) ^ 2 + (a.2.2 - b.2.2) ^ 2

/-- The index of the centroid nearest to `x` (the earliest on ties). -/
def nearestCentroid (cents : List Vec3) (x : Vec3) : Nat :=
  match cents.enum.argmin (fun p => sqDist p.2 x) with
  | some p => p.1
  | none => 0

/-- The mean of cluster `j` under the current centroids; an empty cluster
keeps its centroid. -/
def clusterMean (pts : List Vec3) (cents : List Vec3) (j : Nat) : Vec3 :=
  let cluster := pts.filter fun x => nearestCentroid cents x = j
  if cluster.isEmpty then cents.getD j (0, 0, 0) else vecMean cluster

/-- One Lloyd iteration: move every centroid to its cluster's mean. -/
def lloydStep (pts : List Vec3) (cents : List Vec3) : List Vec3 :=
  (List.range cents.length).map (clusterMean pts cents)

/-- A fixed number of Lloyd iterations. -/
def lloydIter (pts : List Vec3) : Nat → List Vec3 → List Vec3
  | 0, cents => cents
  | n + 1, cents => lloydIter pts n (lloydStep pts cents)

/-- Modelled from the spec (§4.4): k-means with a fixed cluster count of
3 minimizing within-cluster squared distance, with fixed, reproducible
initialization — a deterministic function of the data (the first three
distinct points), standing in for the backend's fixed seed — and a fixed
iteration budget. -/
def kmeansFit (pts : List Vec3) : List Vec3 :=
  lloydIter pts 10 (pts.dedup.take 3)

/-- The three archetype names, ranked by centroid mean frequency
descending. -/
def archetypeNames : List String :=
  ["Monthly High-Value Buyers", "Seasonal Buyers",
   "Experimental/Hesitant Lower-Value Buyers"]

/-- Modelled from the spec (§4.4): map a cluster index to its stable
archetype name by ranking the fitted centroids on mean frequency
descending (ties broken by centroid index): the top is Monthly
High-Value, the middle Seasonal, the bottom Experimental/Hesitant. -/
def segmentName (cents : List Vec3) (j : Nat) : String :=
  let fj := (cents.getD j (0, 0, 0)).2.1
  let rank := (cents.enum.filter fun p =>
    fj < p.2.2.1 ∨ (p.2.2.1 = fj ∧ p.1 < j)).length
  archetypeNames.getD rank "Unknown"

/-- Modelled from the spec (§2, §4.4): fit the segmentation over the
standardized feature vectors and merge cluster index and archetype name
into each customer record (merge on customer id: the records and their
feature vectors are kept aligned). -/
def enrichRecords (sqrtQ : ℚ → ℚ) (records : List CustomerRecord) : List CustomerRecord :=
  let feats := standardize sqrtQ
    (records.map fun r => (r.recency, (r.frequency : ℚ), r.monetary_log))
  let cents := kmeansFit feats
  (records.zip feats).map fun rx =>
    let j := nearestCentroid cents rx.2
    { rx.1 with cluster_assignment := j, segment := segmentName cents j }

/-- Modelled from the spec (§4.5): the statistics row for one segment
group. -/
def segmentStatsFor (customers : List CustomerRecord) (name : String) : SegmentStatistics :=
  let group := customers.filter fun c => c.segment = name
  let med := group.filter fun c => c.churn_label = some "Medium Risk"
  let high := group.filter fun c => c.churn_label = some "High Risk"
  let atRisk := group.filter fun c =>
    c.churn_label = some "Medium Risk" ∨ c.churn_label = some "High Risk"
  { segment := name
    high_risk_count := high.length
    medium_risk_count := med.length
    med_high_ratio := ((med.length : ℚ) + (high.length : ℚ)) / (group.length : ℚ)
    med_high_monetary_sum := (atRisk.map fun c => c.monetary).sum }

/-- The distinct segment names present in the customer table, in order of
first appearance: only non-empty groups ever produce a row. -/
def realSegmentNames (customers : List CustomerRecord) : List String :=
  (customers.map fun c => c.segment).dedup

/-- Modelled from the spec (§3, §4.5): the synthetic Total row, computed
over the whole customer table. -/
def totalStatsRow (customers : List CustomerRecord) : SegmentStatistics :=
  let med := customers.filter fun c => c.churn_label = some "Medium Risk"
  let high := customers.filter fun c => c.churn_label = some "High Risk"
  let atRisk := customers.filter fun c =>
    c.churn_label = some "Medium Risk" ∨ c.churn_label = some "High Risk"
  { segment := "Total"
    high_risk_count := high.length
    medium_risk_count := med.length
    med_high_ratio := ((med.length : ℚ) + (high.length : ℚ)) / (customers.length : ℚ)
    med_high_monetary_sum := (atRisk.map fun c => c.monetary).sum }

/-- Modelled from the spec (§4.5): one row per non-empty segment, grouped
by `segment`, plus the synthetic Total row. -/
def computeSegmentStatistics (customers : List CustomerRecord) : List SegmentStatistics :=
  (realSegmentNames customers).map (segmentStatsFor customers) ++ [totalStatsRow customers]

/-- Modelled from the spec (§7): the error taxonomy. `SchemaError`
(required columns absent) cannot arise in this typed embedding, where
every row carries all columns. -/
inductive ApiError
  | SchemaError
  | EmptyDatasetError
  | InsufficientDataError
  | CustomerNotFoundError
deriving Repr, DecidableEq

/-- Modelled from the spec (§2, §4, §6): the `load_dataset` pipeline —
clean, fail with EmptyDatasetError when no rows remain, fail with
InsufficientDataError when fewer than 3 distinct customers exist,
otherwise aggregate, segment, and roll up statistics; no partial result
on any failure. -/
def load_dataset (lnQ sqrtQ : ℚ → ℚ) (rows : List Txn) :
    Except ApiError ProcessDataResponse :=
  let cleaned := cleanRows rows
  if cleaned.isEmpty then .error .EmptyDatasetError
  else if (customerIds cleaned).length < 3 then .error .InsufficientDataError
  else
    let records := enrichRecords sqrtQ (baseRecords lnQ cleaned)
    .ok { status := "success"
          message := "Data processed successfully"
          data := records
          total_customers := records.length
          segment_statistics := computeSegmentStatistics records }

/-- Render a rational for interpolation into recommendation text. -/
def ratText (q : ℚ) : String :=
  toString q.num ++ "/" ++ toString q.den

/-- Modelled from the spec (§4.6): deterministic, templated multi-point
guidance text keyed by (segment, churn label) and interpolated with the
customer's own metrics; no randomness, no external calls. -/
def generateRecommendation (c : CustomerRecord) : String :=
  let risk := match c.churn_label with
    | some l => l
    | none => "Unknown"
  let ratio := match c.churn_ratio with
    | some r => ratText r
    | none => "n/a"
  "(1) Customer in segment " ++ c.segment ++ " at " ++ risk ++
  ": tailor outreach to a recency of " ++ ratText c.recency ++
  " days across " ++ toString c.frequency ++ " invoices. " ++
  "(2) Annual value " ++ ratText c.monetary ++
  " with churn ratio " ++ ratio ++ "."

/-- Modelled from the spec (§4.6, §6): `get_recommendation` over the
current enriched table and the recommendation cache (an association list
keyed by customer id). A hit returns the cached text unchanged; a miss
computes once, stores and returns; an id absent from the table fails
with CustomerNotFoundError. Returns the response and the new cache. -/
def get_recommendation (table : List CustomerRecord) (cache : List (Nat × String))
    (cid : Nat) : Except ApiError CustomerRecommendationResponse × List (Nat × String) :=
  match table.find? (fun c => c.customer_id = cid) with
  | none => (.error .CustomerNotFoundError, cache)
  | some c =>
    match cache.lookup cid with
    | some txt => (.ok { customer := c, recommendation := txt }, cache)
    | none =>
      let txt := generateRecommendation c
      (.ok { customer := c, recommendation := txt }, (cid, txt) :: cache)

/-- A concrete transaction row for witnesses. -/
def sampleTxn (cid inv day : Nat) : Txn :=
  { invoice_id := inv
    product_id := 1
    customer_id := some cid
    quantity := 2
    unit_price := 5
    invoice_date := day
    country := "United Kingdom" }

/-- A concrete dataset with exactly two distinct customers. -/
def twoCustomerRows : List Txn :=
  [sampleTxn 1 1 10, sampleTxn 1 2 15, sampleTxn 2 3 20]

/-- A concrete dataset where every row lacks a customer id. -/
def allMissingCustomerRows : List Txn :=
  [{ sampleTxn 1 1 10 with customer_id := none },
   { sampleTxn 2 2 20 with customer_id := none }]

/-- A concrete dataset with three distinct customers. -/
def threeCustomerRows : List Txn :=
  [sampleTxn 1 1 10, sampleTxn 1 2 15, sampleTxn 2 3 20, sampleTxn 3 4 25]

/-- A concrete customer record for witnesses. -/
def sampleCustomer (cid : Nat) (seg : String) (label : Option String) (mon : ℚ) :
    CustomerRecord :=
  { customer_id := cid
    recency := 10
    frequency := 2
    monetary := mon
    median_purchase_days := some 5
    churn_ratio := some 2
    churn_label := label
    monetary_log := 3
    cluster_assignment := 0
    segment := seg }

/-- A concrete customer table spanning two segments and three risk
labels. -/
def sampleCustomers : List CustomerRecord :=
  [sampleCustomer 1 "Seasonal Buyers" (some "High Risk") 100,
   sampleCustomer 2 "Monthly High-Value Buyers" (some "Medium Risk") 200,
   sampleCustomer 3 "Seasonal Buyers" none 50]

/-- The spec-modelled scorer hits each label exactly on its threshold
interval. -/
theorem churnLabel_cases (r : ℚ) :
    (churnLabelOfRatio r = "Low Risk" ↔ r < 1) ∧
    (churnLabelOfRatio r = "Medium Risk" ↔ 1 ≤ r ∧ r < 2) ∧
    (churnLabelOfRatio r = "High Risk" ↔ 2 ≤ r) := by
  unfold churnLabelOfRatio
  by_cases h1 : r < 1
  · have h2 : r < 2 := by linarith
    simp [h1, h2, not_le.mpr h1, not_le.mpr h2]
  · by_cases h2 : r < 2
    · simp [h1, h2, not_lt.mp h1, not_le.mpr h2]
    · simp [h1, h2, not_lt.mp h2]

/-- The frontend colours agree with the scorer's labels. -/
theorem getPointColor_cases (r : ℚ) :
    (getPointColor r = "hsl(0, 84%, 60%)" ↔ churnLabelOfRatio r = "High Risk") ∧
    (getPointColor r = "hsl(38, 92%, 50%)" ↔ churnLabelOfRatio r = "Medium Risk") ∧
    (getPointColor r = "hsl(142, 71%, 45%)" ↔ churnLabelOfRatio r = "Low Risk") := by
  unfold getPointColor churnLabelOfRatio
  by_cases h1 : r < 1
  · have h2 : r < 2 := by linarith
    simp [h1, h2, not_le.mpr h1, not_le.mpr h2]
  · by_cases h2 : r < 2
    · simp [h1, h2, not_lt.mp h1, not_le.mpr h2]
    · simp [h1, h2, not_lt.mp h2]

/-- C1: for every churn ratio the spec-modelled scorer assigns Low Risk
exactly below 1, Medium Risk exactly on [1, 2), and High Risk exactly at
and above 2 (so ratio 2 is High and ratio 1 is Medium), exhaustively and
exclusively, and the frontend's `getPointColor` colours agree with that
classification. -/
theorem churn_label_thresholds (r : ℚ) :
    (churnLabelOfRatio r = "Low Risk" ↔ r < 1) ∧
    (churnLabelOfRatio r = "Medium Risk" ↔ 1 ≤ r ∧ r < 2) ∧
    (churnLabelOfRatio r = "High Risk" ↔ 2 ≤ r) ∧
    (churnLabelOfRatio 2 = "High Risk" ∧ churnLabelOfRatio 1 = "Medium Risk") ∧
    (getPointColor r = "hsl(0, 84%, 60%)" ↔ churnLabelOfRatio r = "High Risk") ∧
    (getPointColor r = "hsl(38, 92%, 50%)" ↔ churnLabelOfRatio r = "Medium Risk") ∧
    (getPointColor r = "hsl(142, 71%, 45%)" ↔ churnLabelOfRatio r = "Low Risk") := by
  obtain ⟨hl, hm, hh⟩ := churnLabel_cases r
  obtain ⟨gl, gm, gh⟩ := getPointColor_cases r
  refine ⟨hl, hm, hh, ⟨?_, ?_⟩, gl, gm, gh⟩
  · exact (churnLabel_cases 2).2.2.mpr le_rfl
  · exact (churnLabel_cases 1).2.1.mpr ⟨le_rfl, by norm_num⟩

/-- C10: the churn table renders only customers labelled exactly Medium
Risk or High Risk (Low Risk and unlabelled customers never appear); the
filtered rows keep the order of the input list; with Show All off at most
the first ten at-risk rows are shown, and with it on all of them. -/
theorem churn_table_at_risk (data : List CustomerRecord) (showAll : Bool) :
    (∀ c ∈ displayData data showAll,
      c.churn_label = some "High Risk" ∨ c.churn_label = some "Medium Risk") ∧
    (∀ c, c ∈ atRiskData data ↔ c ∈ data ∧
      (c.churn_label = some "High Risk" ∨ c.churn_label = some "Medium Risk")) ∧
    (displayData data showAll).Sublist data ∧
    (displayData data false).length ≤ 10 ∧
    displayData data true = atRiskData data := by
  refine ⟨?_, ?_, ?_, ?_, rfl⟩
  · intro c hc
    have hmem : c ∈ atRiskData data := by
      unfold displayData at hc
      cases showAll with
      | false => exact List.mem_of_mem_take (by simpa using hc)
      | true => simpa using hc
    have := List.of_mem_filter hmem
    simpa using this
  · intro c
    unfold atRiskData
    constructor
    · intro hc
      exact ⟨List.mem_of_mem_filter hc, by simpa using List.of_mem_filter hc⟩
    · intro ⟨hmem, hlab⟩
      exact List.mem_filter.mpr ⟨hmem, by simpa using hlab⟩
  · have hsub : (atRiskData data).Sublist data := List.filter_sublist data
    unfold displayData
    cases showAll with
    | false => exact (List.take_sublist 10 _).trans hsub
    | true => exact hsub
  · unfold displayData
    exact List.length_take_le 10 (atRiskData data)

/-- C4 counterexample: the success payloads declared in the source do not
carry the field names the claim states — the customer-record list field
is named `data` (not `customer_records`), and the recommendation payload
uses `customer` and `recommendation` (not `customer_record` and
`recommendation_text`). -/
theorem response_fields_differ_from_claim :
    processDataResponseFields ≠ specLoadDatasetFields ∧
    customerRecommendationResponseFields ≠ specGetRecommendationFields ∧
    ¬ "customer_records" ∈ processDataResponseFields ∧
    ¬ "customer_record" ∈ customerRecommendationResponseFields ∧
    ¬ "recommendation_text" ∈ customerRecommendationResponseFields := by
  decide

/-- C4 (amended): the success payload of `load_dataset` carries exactly
the fields status, message, data, total_customers and segment_statistics,
and the success payload of `get_recommendation` carries exactly customer
and recommendation — no other field names and no omissions. -/
theorem response_fields_exact :
    processDataResponseFields = amendedLoadDatasetFields ∧
    customerRecommendationResponseFields = amendedGetRecommendationFields := by
  decide

/-- Splitting cleaning into its two ordered rules equals one combined
filter. -/
theorem cleanRows_eq_filter (rows : List Txn) :
    cleanRows rows = rows.filter
      (fun t => t.customer_id.isSome ∧ 0 < t.quantity ∧ 0 < t.unit_price) := by
  unfold cleanRows dropMissingCustomer dropNonPositive
  rw [List.filter_filter]
  apply List.filter_congr
  intro t _
  by_cases h1 : t.customer_id.isSome <;> by_cases h2 : 0 < t.quantity <;>
    by_cases h3 : 0 < t.unit_price <;>
    simp [h1, h2, h3, not_lt.mp, le_of_not_lt, not_le.mpr]

/-- C6: every transaction surviving cleaning has a present customer id,
positive quantity and positive unit price; exactly the rows violating one
of these are dropped (null customer id by the first rule, non-positive
price or quantity by the second); and `load_dataset` fails with
EmptyDatasetError exactly when zero rows remain after cleaning. -/
theorem cleaning_postcondition (lnQ sqrtQ : ℚ → ℚ) (rows : List Txn) :
    (∀ t ∈ cleanRows rows,
      t.customer_id.isSome ∧ 0 < t.quantity ∧ 0 < t.unit_price) ∧
    cleanRows rows = rows.filter
      (fun t => t.customer_id.isSome ∧ 0 < t.quantity ∧ 0 < t.unit_price) ∧
    (load_dataset lnQ sqrtQ rows = .error .EmptyDatasetError ↔ cleanRows rows = []) := by
  refine ⟨?_, cleanRows_eq_filter rows, ?_⟩
  · intro t ht
    rw [cleanRows_eq_filter rows] at ht
    simpa using List.of_mem_filter ht
  · unfold load_dataset
    by_cases he : (cleanRows rows).isEmpty
    · simp [he, List.isEmpty_iff.mp he]
    · rw [if_neg (by simpa using he)]
      have hne : ¬ cleanRows rows = [] := by
        simpa [List.isEmpty_iff] using he
      by_cases hn : (customerIds (cleanRows rows)).length < 3 <;>
        simp [hn, hne]

/-- The distinct-invoice-date list is strictly sorted ascending. -/
theorem distinctInvoiceDates_sorted (txns : List Txn) :
    (distinctInvoiceDates txns).Sorted (· < ·) := by
  have hs : (List.insertionSort (· ≤ ·) (txns.map Txn.invoice_date)).Sorted (· ≤ ·) :=
    List.sorted_insertionSort _ _
  have hsd : (distinctInvoiceDates txns).Sorted (· ≤ ·) :=
    List.Pairwise.sublist (List.dedup_sublist _) hs
  exact hsd.lt_of_le (List.nodup_dedup _)

/-- Between strictly ascending dates every successive gap is at least one
day. -/
theorem dateGaps_pos : ∀ l : List Nat, l.Sorted (· < ·) → ∀ g ∈ dateGaps l, 1 ≤ g
  | [], _, g, hg => by simp [dateGaps] at hg
  | [a], _, g, hg => by simp [dateGaps] at hg
  | a :: b :: rest, h, g, hg => by
    rw [dateGaps] at hg
    rcases List.mem_cons.mp hg with rfl | hmem
    · have hab : a < b := (List.pairwise_cons.mp h).1 b (List.mem_cons_self b rest)
      omega
    · exact dateGaps_pos (b :: rest) (List.pairwise_cons.mp h).2 g hmem

/-- A list of n dates has n - 1 successive gaps. -/
theorem dateGaps_length : ∀ l : List Nat, (dateGaps l).length = l.length - 1
  | [] => rfl
  | [_] => rfl
  | a :: b :: rest => by
    rw [dateGaps]
    have := dateGaps_length (b :: rest)
    simp only [List.length_cons] at *
    omega

/-- The median of a non-empty list whose elements are all at least one is
defined and at least one. -/
theorem medianQ_pos (l : List ℚ) (hne : l ≠ []) (hall : ∀ x ∈ l, 1 ≤ x) :
    ∃ m, medianQ l = some m ∧ 1 ≤ m := by
  simp only [medianQ]
  have hlen : (List.insertionSort (· ≤ ·) l).length = l.length :=
    (List.perm_insertionSort _ l).length_eq
  have hpos : 0 < (List.insertionSort (· ≤ ·) l).length := by
    rw [hlen]
    exact List.length_pos.mpr hne
  have hget : ∀ i, i < (List.insertionSort (· ≤ ·) l).length →
      1 ≤ (List.insertionSort (· ≤ ·) l).getD i 0 := by
    intro i h
    have heq : (List.insertionSort (· ≤ ·) l).getD i 0 =
        (List.insertionSort (· ≤ ·) l).get ⟨i, h⟩ := by
      simp [List.getD_eq_getElem?_getD, List.getElem?_eq_getElem h]
    rw [heq]
    exact hall _ ((List.mem_insertionSort _).mp (List.get_mem ..))
  rw [if_neg (by omega)]
  by_cases hodd : (List.insertionSort (· ≤ ·) l).length % 2 = 1
  · rw [if_pos hodd]
    exact ⟨_, rfl, hget _ (Nat.div_lt_self hpos one_lt_two)⟩
  · rw [if_neg hodd]
    have h1 : (List.insertionSort (· ≤ ·) l).length / 2 <
        (List.insertionSort (· ≤ ·) l).length := Nat.div_lt_self hpos one_lt_two
    have h2 : (List.insertionSort (· ≤ ·) l).length / 2 - 1 <
        (List.insertionSort (· ≤ ·) l).length := by omega
    refine ⟨_, rfl, ?_⟩
    have ha := hget _ h1
    have hb := hget _ h2
    linarith

/-- With fewer than two distinct invoice dates the median purchase gap is
undefined. -/
theorem medianPurchaseDays_none (txns : List Txn)
    (h : (distinctInvoiceDates txns).length < 2) :
    medianPurchaseDays txns = none := by
  simp only [medianPurchaseDays]
  rw [if_pos h]

/-- With at least two distinct invoice dates the median purchase gap is
defined and at least one day. -/
theorem medianPurchaseDays_pos (txns : List Txn)
    (h : 2 ≤ (distinctInvoiceDates txns).length) :
    ∃ m, medianPurchaseDays txns = some m ∧ 1 ≤ m := by
  have hglen : 1 ≤ (dateGaps (distinctInvoiceDates txns)).length := by
    rw [dateGaps_length]
    omega
  have hne : (dateGaps (distinctInvoiceDates txns)).map (Nat.cast : ℕ → ℚ) ≠ [] := by
    intro hc
    have hzero := congrArg List.length hc
    rw [List.length_map] at hzero
    simp only [List.length_nil] at hzero
    omega
  have hall : ∀ x ∈ (dateGaps (distinctInvoiceDates txns)).map (Nat.cast : ℕ → ℚ), 1 ≤ x := by
    intro x hx
    simp only [List.mem_map] at hx
    obtain ⟨n, hn, hnx⟩ := hx
    rw [← hnx]
    exact_mod_cast dateGaps_pos _ (distinctInvoiceDates_sorted txns) n hn
  obtain ⟨m, hm, hm1⟩ := medianQ_pos _ hne hall
  refine ⟨m, ?_, hm1⟩
  simp only [medianPurchaseDays]
  rw [if_neg (by omega)]
  exact hm

/-- The churn fields of a computed customer record, by definition. -/
theorem computeCustomer_fields (lnQ : ℚ → ℚ) (refDay cid : Nat) (txns : List Txn) :
    (computeCustomer lnQ refDay cid txns).median_purchase_days = medianPurchaseDays txns ∧
    (computeCustomer lnQ refDay cid txns).churn_ratio =
      churnRatio ((refDay : ℚ) - (maxInvoiceDate txns : ℚ)) (medianPurchaseDays txns) ∧
    (computeCustomer lnQ refDay cid txns).churn_label =
      ((computeCustomer lnQ refDay cid txns).churn_ratio).map churnLabelOfRatio ∧
    (computeCustomer lnQ refDay cid txns).customer_id = cid :=
  ⟨rfl, rfl, rfl, rfl⟩

/-- A computed customer's churn ratio is defined exactly when the
customer has at least two distinct invoice dates. -/
theorem computeCustomer_ratio_iff (lnQ : ℚ → ℚ) (refDay cid : Nat) (txns : List Txn) :
    (computeCustomer lnQ refDay cid txns).churn_ratio.isSome ↔
      2 ≤ (distinctInvoiceDates txns).length := by
  rw [(computeCustomer_fields lnQ refDay cid txns).2.1]
  constructor
  · intro h
    by_contra hlt
    rw [medianPurchaseDays_none txns (by omega)] at h
    simp [churnRatio] at h
  · intro h
    obtain ⟨m, hm, hm1⟩ := medianPurchaseDays_pos txns h
    rw [hm]
    have hm0 : ¬ m = 0 := by
      intro hc
      rw [hc] at hm1
      linarith
    simp [churnRatio, hm0]

/-- C3: a customer with fewer than two distinct invoice dates (in
particular every one-time buyer) gets a null median_purchase_days — not
zero — and the null propagates to a null churn_ratio and a null
churn_label. -/
theorem one_time_buyer_nulls (lnQ : ℚ → ℚ) (refDay cid : Nat) (txns : List Txn)
    (h : (distinctInvoiceDates txns).length < 2) :
    (computeCustomer lnQ refDay cid txns).median_purchase_days = none ∧
    (computeCustomer lnQ refDay cid txns).churn_ratio = none ∧
    (computeCustomer lnQ refDay cid txns).churn_label = none := by
  obtain ⟨hmpd, hratio, hlabel, -⟩ := computeCustomer_fields lnQ refDay cid txns
  have h1 : (computeCustomer lnQ refDay cid txns).median_purchase_days = none := by
    rw [hmpd]
    exact medianPurchaseDays_none txns h
  have h2 : (computeCustomer lnQ refDay cid txns).churn_ratio = none := by
    rw [hratio, medianPurchaseDays_none txns h]
    rfl
  refine ⟨h1, h2, ?_⟩
  rw [hlabel, h2]
  rfl

/-- C3 witness: a single transaction on a single date yields a null
median, ratio and label. -/
theorem one_time_buyer_nulls_witness :
    (distinctInvoiceDates [sampleTxn 1 1 10]).length < 2 ∧
    ((computeCustomer id 11 1 [sampleTxn 1 1 10]).median_purchase_days = none ∧
     (computeCustomer id 11 1 [sampleTxn 1 1 10]).churn_ratio = none ∧
     (computeCustomer id 11 1 [sampleTxn 1 1 10]).churn_label = none) :=
  ⟨by decide, one_time_buyer_nulls id 11 1 [sampleTxn 1 1 10] (by decide)⟩

/-- Mapping a label over an optional ratio preserves definedness. -/
theorem label_isSome_iff (o : Option ℚ) :
    (o.map churnLabelOfRatio).isSome ↔ o.isSome := by
  cases o <;> simp

/-- C2: for every customer record, churn_label is non-null exactly when
churn_ratio is, and churn_ratio is non-null exactly when the customer has
at least two distinct invoice dates; every other field (customer_id,
recency, frequency, monetary, monetary_log, cluster_assignment, segment)
is a total, non-optional field of the record. Stated both for the
aggregation of one customer and for every record in a successful
`load_dataset` output table. -/
theorem churn_nullability (lnQ sqrtQ : ℚ → ℚ) (refDay cid : Nat)
    (txns rows : List Txn) :
    ((computeCustomer lnQ refDay cid txns).churn_label.isSome ↔
      (computeCustomer lnQ refDay cid txns).churn_ratio.isSome) ∧
    ((computeCustomer lnQ refDay cid txns).churn_ratio.isSome ↔
      2 ≤ (distinctInvoiceDates txns).length) ∧
    (∀ resp, load_dataset lnQ sqrtQ rows = .ok resp → ∀ rec ∈ resp.data,
      (rec.churn_label.isSome ↔ rec.churn_ratio.isSome) ∧
      (rec.churn_ratio.isSome ↔
        2 ≤ (distinctInvoiceDates (txnsOf (cleanRows rows) rec.customer_id)).length)) := by
  have base : ∀ rd c ts, ((computeCustomer lnQ rd c ts).churn_label.isSome ↔
      (computeCustomer lnQ rd c ts).churn_ratio.isSome) ∧
      ((computeCustomer lnQ rd c ts).churn_ratio.isSome ↔
        2 ≤ (distinctInvoiceDates ts).length) := by
    intro rd c ts
    refine ⟨?_, computeCustomer_ratio_iff lnQ rd c ts⟩
    rw [(computeCustomer_fields lnQ rd c ts).2.2.1]
    exact label_isSome_iff _
  refine ⟨(base refDay cid txns).1, (base refDay cid txns).2, ?_⟩
  intro resp hresp rec hrec
  simp only [load_dataset] at hresp
  split at hresp
  · cases hresp
  split at hresp
  · cases hresp
  cases hresp
  simp only [enrichRecords, List.mem_map] at hrec
  obtain ⟨rx, hrxmem, hreceq⟩ := hrec
  obtain ⟨a, b⟩ := rx
  have hamem : a ∈ baseRecords lnQ (cleanRows rows) := (List.of_mem_zip hrxmem).1
  simp only [baseRecords, List.mem_map] at hamem
  obtain ⟨c, hc, haeq⟩ := hamem
  have hfields : rec.churn_label = a.churn_label ∧ rec.churn_ratio = a.churn_ratio ∧
      rec.customer_id = a.customer_id := by
    rw [← hreceq]
    exact ⟨rfl, rfl, rfl⟩
  obtain ⟨hlab, hrat, hid⟩ := hfields
  rw [hlab, hrat, hid, ← haeq]
  have hcid : (computeCustomer lnQ (maxInvoiceDate (cleanRows rows) + 1) c
      (txnsOf (cleanRows rows) c)).customer_id = c := rfl
  rw [hcid]
  exact base _ c (txnsOf (cleanRows rows) c)

/-- C8 counterexample: with every row lacking a customer id, cleaning
drops all rows and fewer than 3 (namely zero) distinct customers remain,
yet `load_dataset` fails with EmptyDatasetError, not
InsufficientDataError. -/
theorem insufficient_data_counterexample :
    (customerIds (cleanRows allMissingCustomerRows)).length < 3 ∧
    load_dataset id id allMissingCustomerRows = .error .EmptyDatasetError ∧
    load_dataset id id allMissingCustomerRows ≠ .error .InsufficientDataError := by
  refine ⟨by decide, rfl, ?_⟩
  intro h
  have h' : (Except.error ApiError.EmptyDatasetError : Except ApiError ProcessDataResponse) =
      Except.error ApiError.InsufficientDataError := h
  exact ApiError.noConfusion (Except.error.inj h')

/-- C8 (amended): `load_dataset` fails with InsufficientDataError exactly
when at least one row survives cleaning but fewer than 3 distinct
customers exist (with zero surviving rows EmptyDatasetError takes
precedence); and whenever `load_dataset` fails, no partial result is
returned — the pipeline never skips clustering and returns un-segmented
data. -/
theorem insufficient_data_error (lnQ sqrtQ : ℚ → ℚ) (rows : List Txn) :
    (load_dataset lnQ sqrtQ rows = .error .InsufficientDataError ↔
      cleanRows rows ≠ [] ∧ (customerIds (cleanRows rows)).length < 3) ∧
    (∀ e, load_dataset lnQ sqrtQ rows = .error e →
      ¬ ∃ resp, load_dataset lnQ sqrtQ rows = .ok resp) := by
  constructor
  · simp only [load_dataset]
    by_cases he : (cleanRows rows).isEmpty
    · have hnil : cleanRows rows = [] := List.isEmpty_iff.mp he
      simp [he, hnil]
    · have hne : ¬ cleanRows rows = [] := by
        simpa [List.isEmpty_iff] using he
      rw [if_neg (by simpa using he)]
      by_cases hn : (customerIds (cleanRows rows)).length < 3 <;> simp [hn, hne]
  · rintro e he ⟨resp, hresp⟩
    rw [he] at hresp
    simp at hresp

/-- C8 witness: a dataset with exactly two distinct customers makes
`load_dataset` fail with InsufficientDataError. -/
theorem insufficient_data_error_witness :
    load_dataset id id twoCustomerRows = .error .InsufficientDataError :=
  ((insufficient_data_error id id twoCustomerRows).1).mpr (by decide)

/-- C9: determinism — running the pipeline on two identical datasets
produces identical outputs, and in particular identical
cluster_assignment and segment values for every customer: the clustering
initialization is a deterministic function of the data (the fixed seed)
and archetype naming is a pure function of the centroids ranked by mean
frequency descending. -/
theorem pipeline_deterministic (lnQ sqrtQ : ℚ → ℚ) (d₁ d₂ : List Txn) (h : d₁ = d₂) :
    load_dataset lnQ sqrtQ d₁ = load_dataset lnQ sqrtQ d₂ ∧
    (∀ r₁ r₂, load_dataset lnQ sqrtQ d₁ = .ok r₁ → load_dataset lnQ sqrtQ d₂ = .ok r₂ →
      r₁.data.map (fun c => (c.customer_id, c.cluster_assignment, c.segment)) =
        r₂.data.map (fun c => (c.customer_id, c.cluster_assignment, c.segment))) := by
  subst h
  refine ⟨rfl, ?_⟩
  intro r₁ r₂ h₁ h₂
  rw [h₁] at h₂
  injection h₂ with h₃
  rw [h₃]

/-- C9 witness: the determinism theorem applied to a concrete
three-customer dataset. -/
theorem pipeline_deterministic_witness :
    load_dataset id id threeCustomerRows = load_dataset id id threeCustomerRows :=
  (pipeline_deterministic id id threeCustomerRows threeCustomerRows rfl).1

/-- C7: calling `get_recommendation` twice for the same customer id with
no dataset reload in between returns byte-identical recommendation text:
the first call populates the cache, the second lookup returns the cached
text unchanged, and an uncached computation is the deterministic pure
function `generateRecommendation`, so recomputation also yields identical
text. -/
theorem recommendation_idempotent (table : List CustomerRecord)
    (cache : List (Nat × String)) (cid : Nat) :
    (get_recommendation table (get_recommendation table cache cid).2 cid).1 =
      (get_recommendation table cache cid).1 ∧
    (∀ c, table.find? (fun r => r.customer_id = cid) = some c →
      cache.lookup cid = none →
      (get_recommendation table cache cid).1 =
        .ok { customer := c, recommendation := generateRecommendation c }) := by
  cases hfind : table.find? (fun r => r.customer_id = cid) with
  | none =>
    constructor
    · simp [get_recommendation, hfind]
    · intro c hc
      cases hc
  | some c =>
    cases hlook : cache.lookup cid with
    | some txt =>
      constructor
      · simp [get_recommendation, hfind, hlook]
      · intro c' hc' hl
        cases hl
    | none =>
      constructor
      · simp [get_recommendation, hfind, hlook, List.lookup]
      · intro c' hc' hl
        injection hc' with hcc
        subst hcc
        simp [get_recommendation, hfind, hlook]

/-- Two filters over the same list commute. -/
theorem filter_swap {α : Type} (p q : α → Bool) (l : List α) :
    (l.filter p).filter q = (l.filter q).filter p := by
  rw [List.filter_filter, List.filter_filter]
  apply List.filter_congr
  intro a _
  by_cases hp : p a = true <;> by_cases hq : q a = true <;> simp [hp, hq]

/-- Splitting a mapped sum along a decidable predicate. -/
theorem sum_map_filter_split {α M : Type} [AddCommMonoid M]
    (p : α → Prop) [DecidablePred p] (g : α → M) (m : List α) :
    ((m.filter fun a => p a).map g).sum + ((m.filter fun a => ¬ p a).map g).sum
      = (m.map g).sum := by
  induction m with
  | nil => simp
  | cons a rest ih =>
    by_cases hp : p a
    · rw [List.filter_cons, List.filter_cons, if_pos (by simpa using hp),
        if_neg (by simpa using hp), List.map_cons, List.sum_cons, add_assoc, ih,
        List.map_cons, List.sum_cons]
    · rw [List.filter_cons, List.filter_cons, if_neg (by simpa using hp),
        if_pos (by simpa using hp), List.map_cons, List.sum_cons, add_left_comm, ih,
        List.map_cons, List.sum_cons]

/-- Grouping a list by a nodup key list that covers it and summing the
per-group sums recovers the total sum. -/
theorem sum_map_filter_partition {α M : Type} [AddCommMonoid M]
    (g : α → M) (k : α → String) :
    ∀ (vs : List String) (m : List α), vs.Nodup → (∀ a ∈ m, k a ∈ vs) →
      (vs.map fun v => ((m.filter fun a => k a = v).map g).sum).sum = (m.map g).sum
  | [], m, _, hcov => by
    cases m with
    | nil => simp
    | cons a rest => exact absurd (hcov a (List.mem_cons_self a rest)) (List.not_mem_nil _)
  | v :: rest, m, hnd, hcov => by
    obtain ⟨hvrest, hnd'⟩ := List.nodup_cons.mp hnd
    have key : ∀ v' ∈ rest, (m.filter fun a => k a = v')
        = ((m.filter fun a => ¬ k a = v).filter fun a => k a = v') := by
      intro v' hv'
      have hvv : ¬ v' = v := fun hh => hvrest (hh ▸ hv')
      rw [List.filter_filter]
      apply List.filter_congr
      intro a _
      by_cases hk : k a = v'
      · simp [hk, hvv]
      · simp [hk]
    have hcov' : ∀ a ∈ (m.filter fun a => ¬ k a = v), k a ∈ rest := by
      intro a ha
      have hmem := List.mem_of_mem_filter ha
      have hne : ¬ k a = v := by simpa using List.of_mem_filter ha
      rcases List.mem_cons.mp (hcov a hmem) with hh | hh
      · exact absurd hh hne
      · exact hh
    have hrw : (rest.map fun v' => ((m.filter fun a => k a = v').map g).sum)
        = (rest.map fun v' =>
            (((m.filter fun a => ¬ k a = v).filter fun a => k a = v').map g).sum) := by
      apply List.map_congr_left
      intro v' hv'
      rw [key v' hv']
    rw [List.map_cons, List.sum_cons, hrw,
      sum_map_filter_partition g k rest (m.filter fun a => ¬ k a = v) hnd' hcov',
      sum_map_filter_split (fun a => k a = v) g m]

/-- Mapping every element to one and summing gives the length. -/
theorem sum_map_one {α : Type} (m : List α) : (m.map fun _ => (1 : ℕ)).sum = m.length := by
  induction m with
  | nil => rfl
  | cons a rest ih =>
    simp only [List.map_cons, List.sum_cons, List.length_cons, ih]
    omega

/-- The length version of the partition identity. -/
theorem length_filter_partition {α : Type} (k : α → String) (vs : List String) (m : List α)
    (hnd : vs.Nodup) (hcov : ∀ a ∈ m, k a ∈ vs) :
    (vs.map fun v => (m.filter fun a => k a = v).length).sum = m.length := by
  have h := sum_map_filter_partition (fun _ => (1 : ℕ)) k vs m hnd hcov
  rw [sum_map_one] at h
  rw [← h]
  apply congrArg
  apply List.map_congr_left
  intro v _
  rw [sum_map_one]

/-- Every name in the real-segment list is some customer's segment. -/
theorem realSegmentNames_spec (customers : List CustomerRecord) :
    ∀ name ∈ realSegmentNames customers, ∃ c ∈ customers, c.segment = name := by
  intro name hname
  have := List.mem_dedup.mp hname
  simp only [List.mem_map] at this
  obtain ⟨c, hc, hceq⟩ := this
  exact ⟨c, hc, hceq⟩

/-- C5: segment_statistics is one row per non-empty segment (a row's
group is never empty, so the med-high ratio never divides by zero) plus
exactly one synthetic Total row, and the Total row's medium-risk count,
high-risk count and medium+high monetary sum equal the sums of those
fields across all real segment rows. -/
theorem segment_statistics_rollup (customers : List CustomerRecord)
    (h : ∀ c ∈ customers, c.segment ≠ "Total") :
    (∀ name ∈ realSegmentNames customers,
      0 < (customers.filter fun c => c.segment = name).length) ∧
    computeSegmentStatistics customers
      = (realSegmentNames customers).map (segmentStatsFor customers)
        ++ [totalStatsRow customers] ∧
    ((computeSegmentStatistics customers).filter fun s => s.segment = "Total")
      = [totalStatsRow customers] ∧
    (totalStatsRow customers).medium_risk_count
      = (((realSegmentNames customers).map (segmentStatsFor customers)).map
          fun s => s.medium_risk_count).sum ∧
    (totalStatsRow customers).high_risk_count
      = (((realSegmentNames customers).map (segmentStatsFor customers)).map
          fun s => s.high_risk_count).sum ∧
    (totalStatsRow customers).med_high_monetary_sum
      = (((realSegmentNames customers).map (segmentStatsFor customers)).map
          fun s => s.med_high_monetary_sum).sum := by
  have hnames := realSegmentNames_spec customers
  have hnd : (realSegmentNames customers).Nodup := List.nodup_dedup _
  have hcovAll : ∀ c ∈ customers, c.segment ∈ realSegmentNames customers := by
    intro c hc
    exact List.mem_dedup.mpr (List.mem_map_of_mem _ hc)
  refine ⟨?_, rfl, ?_, ?_, ?_, ?_⟩
  · intro name hname
    obtain ⟨c, hc, hceq⟩ := hnames name hname
    have : c ∈ customers.filter fun x => x.segment = name :=
      List.mem_filter.mpr ⟨hc, by simp [hceq]⟩
    exact List.length_pos.mpr (List.ne_nil_of_mem this)
  · show ((realSegmentNames customers).map (segmentStatsFor customers)
        ++ [totalStatsRow customers]).filter (fun s => s.segment = "Total")
      = [totalStatsRow customers]
    rw [List.filter_append]
    have h1 : ((realSegmentNames customers).map (segmentStatsFor customers)).filter
        (fun s => s.segment = "Total") = [] := by
      rw [List.filter_eq_nil_iff]
      intro s hs
      simp only [List.mem_map] at hs
      obtain ⟨name, hname, hseq⟩ := hs
      obtain ⟨c, hc, hceq⟩ := hnames name hname
      have hsegeq : s.segment = name := by
        rw [← hseq]
        rfl
      rw [hsegeq]
      simpa using hceq ▸ h c hc
    have h2 : ([totalStatsRow customers]).filter (fun s => s.segment = "Total")
        = [totalStatsRow customers] := by
      rw [List.filter_eq_self]
      intro s hs
      rw [List.mem_singleton.mp hs]
      simp [totalStatsRow]
    rw [h1, h2, List.nil_append]
  · show (customers.filter fun c => c.churn_label = some "Medium Risk").length
      = (((realSegmentNames customers).map (segmentStatsFor customers)).map
          fun s => s.medium_risk_count).sum
    rw [List.map_map]
    have hcomp : ((fun s => s.medium_risk_count) ∘ segmentStatsFor customers)
        = fun name => ((customers.filter fun c => c.churn_label = some "Medium Risk").filter
            fun c => c.segment = name).length := by
      funext name
      show ((customers.filter fun c => c.segment = name).filter
          fun c => c.churn_label = some "Medium Risk").length = _
      rw [filter_swap]
    rw [hcomp]
    exact (length_filter_partition (fun c => c.segment) (realSegmentNames customers)
      (customers.filter fun c => c.churn_label = some "Medium Risk") hnd
      (fun a ha => hcovAll a (List.mem_of_mem_filter ha))).symm
  · show (customers.filter fun c => c.churn_label = some "High Risk").length
      = (((realSegmentNames customers).map (segmentStatsFor customers)).map
          fun s => s.high_risk_count).sum
    rw [List.map_map]
    have hcomp : ((fun s => s.high_risk_count) ∘ segmentStatsFor customers)
        = fun name => ((customers.filter fun c => c.churn_label = some "High Risk").filter
            fun c => c.segment = name).length := by
      funext name
      show ((customers.filter fun c => c.segment = name).filter
          fun c => c.churn_label = some "High Risk").length = _
      rw [filter_swap]
    rw [hcomp]
    exact (length_filter_partition (fun c => c.segment) (realSegmentNames customers)
      (customers.filter fun c => c.churn_label = some "High Risk") hnd
      (fun a ha => hcovAll a (List.mem_of_mem_filter ha))).symm
  · show ((customers.filter fun c =>
        c.churn_label = some "Medium Risk" ∨ c.churn_label = some "High Risk").map
          fun c => c.monetary).sum
      = (((realSegmentNames customers).map (segmentStatsFor customers)).map
          fun s => s.med_high_monetary_sum).sum
    rw [List.map_map]
    have hcomp : ((fun s => s.med_high_monetary_sum) ∘ segmentStatsFor customers)
        = fun name => (((customers.filter fun c =>
            c.churn_label = some "Medium Risk" ∨ c.churn_label = some "High Risk").filter
              fun c => c.segment = name).map fun c => c.monetary).sum := by
      funext name
      show (((customers.filter fun c => c.segment = name).filter fun c =>
          c.churn_label = some "Medium Risk" ∨ c.churn_label = some "High Risk").map
            fun c => c.monetary).sum = _
      rw [filter_swap]
    rw [hcomp]
    exact (sum_map_filter_partition (fun c => c.monetary) (fun c => c.segment)
      (realSegmentNames customers)
      (customers.filter fun c =>
        c.churn_label = some "Medium Risk" ∨ c.churn_label = some "High Risk") hnd
      (fun a ha => hcovAll a (List.mem_of_mem_filter ha))).symm

/-- C5 witness: the rollup applied to a concrete customer table. -/
theorem segment_statistics_rollup_witness :
    (totalStatsRow sampleCustomers).medium_risk_count
      = (((realSegmentNames sampleCustomers).map (segmentStatsFor sampleCustomers)).map
          fun s => s.medium_risk_count).sum :=
  (segment_statistics_rollup sampleCustomers (by decide)).2.2.2.1
